import Mathlib

/-!
Verification development for the orchestrator repository: a shallow
embedding of the session memory and retrieval-fusion layer
(`Backend/app/services/short_term_memory.py`,
`Backend/app/services/rag_pipeline.py`) and the vector-storage service
(`VECTOR_STORAGE_SERVICE/app/services/{metadata,embedder,vector_store}.py`),
together with theorems about the embedded functions.

Machine integers do not occur (Python integers are unbounded); character
counts are `Nat`/`Int`, scores and confidences are `ℚ`.
-/

namespace Orchestrator

/-! ### Turns and the context-window trimmer
(`short_term_memory.py`, `TimeBasedSessionManager._trim_context` /
`add_message`).  A turn is a dict with keys `role`, `message`,
`timestamp`, `metadata`; the only part of the metadata the trimmer
inspects is the `"type"` key, modelled here as `mtype`. -/

structure Msg where
  role : String
  message : String
  /-- The `"type"` entry of the turn's metadata dict (`none` when absent). -/
  mtype : Option String
deriving DecidableEq

/-- The check `removed.get("metadata", \x7b\x7d).get("type") == "context_summary"`. -/
def Msg.isCtxMarker (m : Msg) : Bool :=
  m.mtype == some "context_summary"

/-- The synthetic marker turn inserted by `_trim_context` when turns were
removed by the count pass (role `system`, metadata type `context_summary`). -/
def markerMsg (n : Nat) : Msg :=
  { role := "system"
    message := "[Context trimmed: " ++ toString n ++ " older messages removed]"
    mtype := some "context_summary" }

/-- The loop `while len(messages) > self.max_messages: messages.pop(0)`. -/
def popWhileOver (maxM : Nat) : List Msg → List Msg
  | [] => []
  | m :: rest =>
    if maxM < (m :: rest).length then popWhileOver maxM rest else m :: rest

/-- The running total `sum(self._estimate_chars(m.get("message", "")) for m in messages)`
(`_estimate_chars` is `len`). -/
def totalChars (l : List Msg) : Int :=
  (l.map fun m => (m.message.length : Int)).sum

/-- The loop
`while total_chars > self.max_context_chars and len(messages) > 1:`
`    removed = messages.pop(0)`
`    if removed.get("metadata", \x7b\x7d).get("type") == "context_summary": continue`
`    total_chars -= self._estimate_chars(removed.get("message", ""))`.
Note the element is popped before its type is inspected; the `continue`
only skips the subtraction from the running total. -/
def charTrimLoop (maxC : Nat) : List Msg → Int → List Msg
  | [], _ => []
  | [m], _ => [m]
  | m :: m2 :: rest, total =>
    if (maxC : Int) < total then
      if m.isCtxMarker then
        charTrimLoop maxC (m2 :: rest) total
      else
        charTrimLoop maxC (m2 :: rest) (total - m.message.length)
    else
      m :: m2 :: rest

/-- `TimeBasedSessionManager._trim_context`, as a pure function of the
session's turn list and the two limits. -/
def trimContext (maxM maxC : Nat) (messages : List Msg) : List Msg :=
  let originalCount := messages.length
  let afterCount := popWhileOver maxM messages
  let withMarker :=
    if afterCount.length < originalCount then
      markerMsg (originalCount - afterCount.length) :: afterCount
    else
      afterCount
  charTrimLoop maxC withMarker (totalChars withMarker)

/-- The per-session effect of `TimeBasedSessionManager.add_message`:
append the new turn, then run `_trim_context`. -/
def appendTurn (maxM maxC : Nat) (msgs : List Msg) (m : Msg) : List Msg :=
  trimContext maxM maxC (msgs ++ [m])

/-- Number of turns not counting synthetic context markers. -/
def countNonMarker (l : List Msg) : Nat :=
  (l.filter fun m => !m.isCtxMarker).length

/-! ### Session store and lifecycle
(`short_term_memory.py`, `TimeBasedSessionManager`).  Python dicts are
modelled as association lists; `datetime` values are modelled as `Nat`
instants (the trichotomy and subtraction used by the code are the only
operations that matter; `datetime.now() - last_accessed` can never be
negative when `now` is the latest instant, matching truncated `Nat`
subtraction).  The I/O side effects of `_summarize_session` and the
ordering of the store mutations are recorded as an event trace. -/

/-- Lookup in a Python dict modelled as an association list. -/
def aget {β : Type} (k : String) (l : List (String × β)) : Option β :=
  (l.find? fun p => p.1 == k).map Prod.snd

/-- Python dict assignment `d[k] = v`: overwrite in place if the key is
present, else append. -/
def aset {β : Type} (k : String) (v : β) (l : List (String × β)) : List (String × β) :=
  if l.any fun p => p.1 == k then
    l.map fun p => if p.1 == k then (k, v) else p
  else
    l ++ [(k, v)]

/-- Python dict `d.pop(k, None)`'s effect on the mapping. -/
def adel {β : Type} (k : String) (l : List (String × β)) : List (String × β) :=
  l.filter fun p => p.1 != k

/-- The `\x7bcreated_at, last_accessed\x7d` metadata dict kept per session. -/
structure SessMeta where
  created_at : Nat
  last_accessed : Nat
deriving DecidableEq

/-- `self._sessions`, `self._session_metadata` and `self._current_session_id`. -/
structure ManagerState where
  sessions : List (String × List Msg)
  meta : List (String × SessMeta)
  current : Option String
deriving DecidableEq

/-- Mutations of the session store and its collaborators, in the order the
code performs them. -/
inductive MEvent where
  /-- `self._current_session_id = None`. -/
  | clearPointer : MEvent
  /-- `await self._summarize_session(sid)` (reads the session, writes the
  vector store). -/
  | summarize (sid : String) : MEvent
  /-- `self._sessions.pop(sid, None); self._session_metadata.pop(sid, None)`. -/
  | removeSession (sid : String) : MEvent
  /-- Insertion of a fresh empty session into both maps. -/
  | createSession (sid : String) : MEvent
  /-- `self._current_session_id = sid`. -/
  | setPointer (sid : String) : MEvent
deriving DecidableEq

/-- `TimeBasedSessionManager._is_session_expired` -/
def isSessionExpired (timeout now : Nat) (st : ManagerState) (sid : String) : Bool :=
  match aget sid st.meta with
  | none => true
  | some m => timeout < now - m.last_accessed

/-- Refresh `last_accessed` of one session to `now`. -/
def refreshLast (sid : String) (now : Nat) (st : ManagerState) : ManagerState :=
  { st with
    meta := st.meta.map fun p =>
      if p.1 == sid then (p.1, { p.2 with last_accessed := now }) else p }

/-- Register a brand-new empty session and point `current` at it. -/
def createFresh (fresh : String) (now : Nat) (st : ManagerState) : ManagerState :=
  { sessions := aset fresh [] st.sessions
    meta := aset fresh ⟨now, now⟩ st.meta
    current := some fresh }

/-- `TimeBasedSessionManager.get_or_create_session`.  `fresh` stands for
the id `_generate_session_id` would produce.  Returns the id handed back
to the caller, the final state, and the trace of mutations in program
order. -/
def getOrCreateSession (timeout now : Nat) (fresh : String) (st : ManagerState) :
    String × ManagerState × List MEvent :=
  match st.current with
  | some sid =>
    if isSessionExpired timeout now st sid then
      let st1 : ManagerState := { st with current := none }
      let st2 : ManagerState :=
        { st1 with sessions := adel sid st1.sessions, meta := adel sid st1.meta }
      (fresh, createFresh fresh now st2,
        [.clearPointer, .summarize sid, .removeSession sid,
         .createSession fresh, .setPointer fresh])
    else
      (sid, refreshLast sid now st, [])
  | none =>
    (fresh, createFresh fresh now st, [.createSession fresh, .setPointer fresh])

/-- `TimeBasedSessionManager.get_current_session`: reads only; returns the
current id unless the pointer is unset or the session expired. -/
def getCurrentSession (timeout now : Nat) (st : ManagerState) : Option String :=
  match st.current with
  | some sid => if isSessionExpired timeout now st sid then none else some sid
  | none => none

/-- One iteration of the loop in `cleanup_all_expired`: summarize, pop the
session from both maps, and only then null the pointer if it referenced
this session. -/
def cleanupStep (sid : String) (st : ManagerState) : ManagerState × List MEvent :=
  ({ sessions := adel sid st.sessions
     meta := adel sid st.meta
     current := if st.current == some sid then none else st.current },
   .summarize sid :: .removeSession sid ::
     (if st.current == some sid then [.clearPointer] else []))

def cleanupGo : List String → ManagerState → ManagerState × List MEvent
  | [], st => (st, [])
  | sid :: rest, st =>
    let r1 := cleanupStep sid st
    let r2 := cleanupGo rest r1.1
    (r2.1, r1.2 ++ r2.2)

/-- `TimeBasedSessionManager.cleanup_all_expired`: the expired list is
computed once from the initial state, then each expired session is
processed in turn. -/
def cleanupAllExpired (timeout now : Nat) (st : ManagerState) : ManagerState × List MEvent :=
  cleanupGo
    ((st.sessions.map Prod.fst).filter fun sid => isSessionExpired timeout now st sid) st

/-- Session-store mutations other than clearing the active pointer. -/
def MEvent.isStoreMutation : MEvent → Bool
  | .summarize _ => true
  | .removeSession _ => true
  | .createSession _ => true
  | _ => false

/-- Does every store mutation in the trace come after a clear of the
active pointer? -/
def clearPrecedesMutations : List MEvent → Bool
  | [] => true
  | .clearPointer :: _ => true
  | e :: rest => !e.isStoreMutation && clearPrecedesMutations rest

/-! ### Text search helpers
(`_search_short_term_memory`, `search_session`,
`_are_messages_related`).  Python strings are modelled through their
character lists; `str.lower` is `Char.toLower` pointwise and
`"needle" in hay` is substring containment. -/

/-- `s.lower()` as a character list. -/
def pyLower (s : String) : List Char :=
  s.toList.map Char.toLower

/-- Python `needle in hay` (substring containment); the empty needle is
contained in every string. -/
def containsSub (needle hay : List Char) : Bool :=
  hay.tails.any fun t => needle.isPrefixOf t

/-- Accumulator pass of Python `str.split()`: split on whitespace,
discarding empty tokens. -/
def pySplitWsAux : List Char → List Char → List (List Char)
  | [], acc => if acc.isEmpty then [] else [acc.reverse]
  | c :: cs, acc =>
    if c.isWhitespace then
      if acc.isEmpty then pySplitWsAux cs [] else acc.reverse :: pySplitWsAux cs []
    else
      pySplitWsAux cs (c :: acc)

/-- Python `str.split()` with no argument. -/
def pySplitWs (l : List Char) : List (List Char) :=
  pySplitWsAux l []

/-- The fixed stop-word set of `_are_messages_related` (the Python set
literal; `"been"` appears twice in the source, which a set absorbs). -/
def stopWords : List (List Char) :=
  (["the", "a", "an", "is", "are", "was", "were", "be", "been",
    "have", "has", "had", "do", "does", "did", "will", "would",
    "could", "should", "may", "might", "must", "shall", "can",
    "need", "dare", "ought", "used", "to", "of", "in", "for",
    "on", "with", "at", "by", "from", "as", "into", "through",
    "during", "before", "after", "above", "below", "between",
    "under", "and", "but", "or", "yet", "so", "if", "because",
    "although", "though", "while", "where", "when", "that",
    "which", "who", "whom", "whose", "what", "this", "these",
    "those", "i", "me", "my", "mine", "myself", "you", "your",
    "yours", "yourself", "he", "him", "his", "himself", "she",
    "her", "hers", "herself", "it", "its", "itself", "we", "us",
    "our", "ours", "ourselves", "they", "them", "their", "theirs",
    "themselves", "am", "being", "been"] : List String).map String.toList

/-- `set(msg.lower().split()) - stop_words`, as a duplicate-free list. -/
def keywordsOf (msg : String) : List (List Char) :=
  ((pySplitWs (pyLower msg)).dedup).filter fun w => !stopWords.contains w

/-- `TimeBasedSessionManager._are_messages_related`. -/
def are_messages_related (msg1 msg2 : String) : Bool :=
  let keywords1 := keywordsOf msg1
  let keywords2 := keywordsOf msg2
  if keywords1.isEmpty || keywords2.isEmpty then false
  else
    let overlap := keywords1.filter fun w => keywords2.contains w
    decide ((overlap.length : ℚ) / (max keywords1.length keywords2.length : ℚ) > 3 / 10)

/-- `TimeBasedSessionManager.search_session` (Python treats the empty
string as falsy in `if not session_id or not query`). -/
def search_session (sid : String) (q : String) (msgs : List Msg) : List Msg :=
  if sid == "" || q == "" then []
  else msgs.filter fun m => containsSub (pyLower q) (pyLower m.message)

/-! ### Retrieval fusion (`rag_pipeline.py`). -/

/-- One retrieved snippet of `run_rag_with_scores` (`source` is the
`"source"` entry of the snippet's metadata). -/
structure Snippet where
  id : String
  document : String
  source : String
  distance : ℚ
  similarity_score : ℚ
deriving DecidableEq

/-- `_search_short_term_memory`: keep every turn of the session whose
lowercased text contains the lowercased query, pin the score at 100, and
truncate to `top_k`.  (The Python id is `"stm_" + timestamp`; the
timestamp suffix is inert and elided here.) -/
def searchShortTerm (sid : String) (msgs : List Msg) (q : String) (topK : Nat) :
    List Snippet :=
  if sid == "" then []
  else if msgs.isEmpty then []
  else
    ((msgs.filter fun m => containsSub (pyLower q) (pyLower m.message)).map fun m =>
      { id := "stm_", document := m.message, source := "short_term_memory",
        distance := 0, similarity_score := 100 }).take topK

/-- Modelled from the spec: the conversion performed by the vector-storage
service's `/semantic_search` endpoint, which is absent from the service's
routes in the repository (only its HTTP client `vector_client.semantic_search`
and its callers exist).  Spec §6: "the Facade converts to a 0–100
similarity scale as `100 * (1 − distance)` clamped to [0,100]". -/
def simScore100 (d : ℚ) : ℚ :=
  max 0 (min 100 (100 * (1 - d)))

/-- One item of the `/semantic_search` HTTP response consumed by
`_extract_semantic_results` (`msource` is the `"source"` entry of the
stored record's metadata). -/
structure RawItem where
  id : String
  text : String
  msource : String
  distance : ℚ
  similarity_score : ℚ
deriving DecidableEq

/-- Modelled from the spec: how the missing `/semantic_search` endpoint
builds a response item for a record at the given index distance. -/
def mkSemanticItem (id text msource : String) (d : ℚ) : RawItem :=
  ⟨id, text, msource, d, simScore100 d⟩

/-- `_extract_semantic_results`: truncate to `top_k` and reshape. -/
def extractSemanticResults (resp : List RawItem) (topK : Nat) : List Snippet :=
  (resp.take topK).map fun r => ⟨r.id, r.text, r.msource, r.distance, r.similarity_score⟩

/-- The comparison under
`list.sort(key=lambda x: x.get("similarity_score", 0), reverse=True)`:
`a` may come before `b` iff `a`'s score is at least `b`'s. -/
def snipDescLE (a b : Snippet) : Bool :=
  decide (b.similarity_score ≤ a.similarity_score)

/-- Python's `list.sort(key=lambda x: x.get("similarity_score", 0), reverse=True)`:
a stable sort, descending by score (ties keep original order).  Modelled
by `List.mergeSort`, which is stable. -/
def pySortDesc (l : List Snippet) : List Snippet :=
  l.mergeSort snipDescLE

/-- Steps 3 and 4 of `run_rag_with_scores`: concatenate, stable-sort
descending by score, truncate to `top_k`. -/
def fuseAndRank (stm lt : List Snippet) (topK : Nat) : List Snippet :=
  (pySortDesc (stm ++ lt)).take topK

/-- The retrieval part of `run_rag_with_scores` in an exception monad:
the short-term search runs first, then `await semantic_search(...)` runs
with no enclosing `try`, so a raised exception propagates and the
short-term results are discarded with it. -/
def runRagWithScoresRetrieval (sid : Option String) (msgs : List Msg) (q : String)
    (semanticResp : Except String (List RawItem)) (topK : Nat) :
    Except String (List Snippet) :=
  let stm := match sid with
    | some s => searchShortTerm s msgs q topK
    | none => []
  match semanticResp with
  | .error e => .error e
  | .ok raw => .ok (fuseAndRank stm (extractSemanticResults raw topK) topK)

/-! ### Metadata confidence merge
(`VECTOR_STORAGE_SERVICE/app/services/metadata.py`, `merge_metadata`).
Metadata dicts are association lists with duplicate-free keys in real
use; values are modelled as `ℚ` (their shape is irrelevant to the merge,
which inspects only `"confidence"`). -/

/-- `d.get(k, dflt)` for a numeric value. -/
def dgetQ (d : List (String × ℚ)) (k : String) (dflt : ℚ) : ℚ :=
  match aget k d with
  | some v => v
  | none => dflt

/-- What `\x7b**old, **new\x7d` does to one entry of `old`: its value is
overridden when `new` has the same key. -/
def pyMergeEntry (new : List (String × ℚ)) (p : String × ℚ) : String × ℚ :=
  match aget p.1 new with
  | some v => (p.1, v)
  | none => p

/-- Python `\x7b**old, **new\x7d`: old's keys first with new's values
overriding, then new-only keys in order. -/
def pyDictMerge (old new : List (String × ℚ)) : List (String × ℚ) :=
  old.map (pyMergeEntry new)
  ++ new.filter fun q => !(old.any fun p => p.1 == q.1)

/-- `merge_metadata`: if `new.get("confidence", 0) >= old.get("confidence", 0)`
return `\x7b**old, **new\x7d`, else return `old`. -/
def merge_metadata (old new : List (String × ℚ)) : List (String × ℚ) :=
  if dgetQ old "confidence" 0 ≤ dgetQ new "confidence" 0 then pyDictMerge old new
  else old

/-! ### Embedding dimension handling
(`VECTOR_STORAGE_SERVICE/app/services/embedder.py` and
`vector_store.py`). -/

/-- The module default `VECTOR_DIMENSION = 768`. -/
def VECTOR_DIMENSION : Nat := 768

/-- The mutable module global `VECTOR_DIMENSION` as the embedder's state. -/
structure EmbedderState where
  dimension : Nat
deriving DecidableEq

/-- What the embedder HTTP call can come back with. -/
inductive EmbedResponse where
  /-- `requests.exceptions.RequestException` → `HTTPException(500, ...)`. -/
  | httpError (msg : String) : EmbedResponse
  /-- Missing or empty `items` → `ValueError("No embeddings returned")`,
  which the `except RequestException` clause does not catch. -/
  | noItems : EmbedResponse
  /-- A vector, of whatever length the embedder service produced. -/
  | items (vector : List ℚ) : EmbedResponse
deriving DecidableEq

/-- `embedder.get_embedding`: on a vector whose length differs from the
tracked dimension the code updates the global (`VECTOR_DIMENSION = len(vector)`)
and returns the vector; it never raises for a mismatch. -/
def get_embedding (st : EmbedderState) (resp : EmbedResponse) :
    Except String (List ℚ × EmbedderState) :=
  match resp with
  | .httpError m => .error ("Embedder error: " ++ m)
  | .noItems => .error "No embeddings returned"
  | .items v =>
    .ok (v, if v.length ≠ st.dimension then { dimension := v.length } else st)

/-- The dimension guard of `VectorStore.store_vector`:
`if len(vector) != self.expected_dimension: raise ValueError(...)`;
`expected_dimension` is fixed when the store object is constructed (the
module-level instance uses the default 768).  The subsequent metadata
normalisation and the `collection.add` call go to the external index and
are out of scope. -/
def store_vector (expectedDim : Nat) (vector : List ℚ) : Except String Unit :=
  if vector.length ≠ expectedDim then .error "Vector length mismatch" else .ok ()

/-! ## Lemmas about the context-window trimmer -/

theorem popWhileOver_length_le (maxM : Nat) :
    ∀ l : List Msg, (popWhileOver maxM l).length ≤ maxM
  | [] => by simp [popWhileOver]
  | m :: rest => by
    rw [popWhileOver]
    split
    · exact popWhileOver_length_le maxM rest
    · omega

theorem popWhileOver_length_le_self (maxM : Nat) :
    ∀ l : List Msg, (popWhileOver maxM l).length ≤ l.length
  | [] => by simp [popWhileOver]
  | m :: rest => by
    rw [popWhileOver]
    split
    · exact (popWhileOver_length_le_self maxM rest).trans (by simp)
    · exact le_refl _

theorem countNonMarker_cons (m : Msg) (l : List Msg) :
    countNonMarker (m :: l) = (if m.isCtxMarker then 0 else 1) + countNonMarker l := by
  simp only [countNonMarker, List.filter_cons]
  cases h : m.isCtxMarker <;> simp [h, Nat.add_comm]

theorem countNonMarker_le_length (l : List Msg) : countNonMarker l ≤ l.length :=
  (l.length_filter_le _)

theorem charTrimLoop_countNonMarker (maxC : Nat) :
    ∀ (l : List Msg) (t : Int), countNonMarker (charTrimLoop maxC l t) ≤ countNonMarker l
  | [], _ => by simp [charTrimLoop]
  | [m], _ => by simp [charTrimLoop]
  | m :: m2 :: rest, t => by
    rw [charTrimLoop]
    split
    · have hle : countNonMarker (m2 :: rest) ≤ countNonMarker (m :: m2 :: rest) := by
        rw [countNonMarker_cons m]
        omega
      split
      · exact (charTrimLoop_countNonMarker maxC (m2 :: rest) t).trans hle
      · exact (charTrimLoop_countNonMarker maxC (m2 :: rest) _).trans hle
    · exact le_refl _

theorem charTrimLoop_ne_nil (maxC : Nat) :
    ∀ (l : List Msg) (t : Int), l ≠ [] → charTrimLoop maxC l t ≠ []
  | [], _, h => absurd rfl h
  | [m], _, _ => by simp [charTrimLoop]
  | m :: m2 :: rest, t, _ => by
    rw [charTrimLoop]
    split
    · split
      · exact charTrimLoop_ne_nil maxC (m2 :: rest) t (by simp)
      · exact charTrimLoop_ne_nil maxC (m2 :: rest) _ (by simp)
    · simp

theorem markerMsg_isCtxMarker (n : Nat) : (markerMsg n).isCtxMarker = true := rfl

theorem trimContext_countNonMarker (maxM maxC : Nat) (l : List Msg) :
    countNonMarker (trimContext maxM maxC l) ≤ maxM := by
  unfold trimContext
  have h1 : (popWhileOver maxM l).length ≤ maxM := popWhileOver_length_le maxM l
  dsimp only
  split
  · refine (charTrimLoop_countNonMarker maxC _ _).trans ?_
    rw [countNonMarker_cons, markerMsg_isCtxMarker]
    simpa using (countNonMarker_le_length _).trans h1
  · exact (charTrimLoop_countNonMarker maxC _ _).trans
      ((countNonMarker_le_length _).trans h1)

theorem trimContext_ne_nil (maxM maxC : Nat) (l : List Msg) (h : l ≠ []) :
    trimContext maxM maxC l ≠ [] := by
  unfold trimContext
  dsimp only
  split
  · exact charTrimLoop_ne_nil maxC _ _ (by simp)
  · rename_i hlen
    refine charTrimLoop_ne_nil maxC _ _ ?_
    intro hnil
    rw [hnil] at hlen
    simp only [List.length_nil, Nat.not_lt, Nat.le_zero] at hlen
    exact h (List.length_eq_zero.mp hlen)

/-- C1: after every `add_message` the session's turn count, not counting
synthetic context-marker turns, is at most `max_messages`, the trimmed
list is never empty, and `_trim_context` never turns a non-empty session
into an empty one (the char-budget loop stops once a single turn
remains). -/
theorem appendTurn_turnBudget (maxM maxC : Nat) (msgs : List Msg) (m : Msg) :
    countNonMarker (appendTurn maxM maxC msgs m) ≤ maxM ∧
    appendTurn maxM maxC msgs m ≠ [] ∧
    (msgs ≠ [] → trimContext maxM maxC msgs ≠ []) :=
  ⟨trimContext_countNonMarker maxM maxC (msgs ++ [m]),
   trimContext_ne_nil maxM maxC (msgs ++ [m]) (by simp),
   fun h => trimContext_ne_nil maxM maxC msgs h⟩

/-- Witness for C1 at the configured limits (20 turns, 4000 chars). -/
theorem appendTurn_turnBudget_witness :
    countNonMarker (appendTurn 20 4000 [⟨"user", "hi", none⟩] ⟨"user", "yo", none⟩) ≤ 20 ∧
    appendTurn 20 4000 [⟨"user", "hi", none⟩] ⟨"user", "yo", none⟩ ≠ [] ∧
    trimContext 20 4000 [⟨"user", "hi", none⟩] ≠ [] := by
  have h := appendTurn_turnBudget 20 4000 [⟨"user", "hi", none⟩] ⟨"user", "yo", none⟩
  exact ⟨h.1, h.2.1, h.2.2 (by simp)⟩

/-- C2 (failing input): with `max_messages = 2`, `max_chars = 5` and three
10-char turns, the count pass removes one turn and prepends a marker, and
the char-budget pass then pops the marker it just created — the pop
happens before the `context_summary` type check, so the `continue` cannot
protect the marker.  The final list holds no marker at all. -/
theorem charTrim_evicts_marker :
    trimContext 2 5
        [⟨"user", "aaaaaaaaaa", none⟩, ⟨"user", "aaaaaaaaaa", none⟩,
         ⟨"user", "aaaaaaaaaa", none⟩]
      = [⟨"user", "aaaaaaaaaa", none⟩]
    ∧ charTrimLoop 5
        (markerMsg 1 :: [⟨"user", "aaaaaaaaaa", none⟩, ⟨"user", "aaaaaaaaaa", none⟩])
        (totalChars
          (markerMsg 1 :: [⟨"user", "aaaaaaaaaa", none⟩, ⟨"user", "aaaaaaaaaa", none⟩]))
      = [⟨"user", "aaaaaaaaaa", none⟩]
    ∧ (markerMsg 1).isCtxMarker = true
    ∧ (∀ m ∈ trimContext 2 5
          [⟨"user", "aaaaaaaaaa", none⟩, ⟨"user", "aaaaaaaaaa", none⟩,
           ⟨"user", "aaaaaaaaaa", none⟩], m.isCtxMarker = false) := by
  refine ⟨by decide, by decide, rfl, by decide⟩

/-! ## Lemmas about the session store -/

theorem aget_cons {β : Type} (p : String × β) (l : List (String × β)) (k : String) :
    aget k (p :: l) = if p.1 == k then some p.2 else aget k l := by
  cases h : p.1 == k <;> simp [aget, List.find?, h]

theorem aget_adel_self {β : Type} (k : String) :
    ∀ l : List (String × β), aget k (adel k l) = none
  | [] => rfl
  | p :: rest => by
    simp only [adel, List.filter_cons, bne]
    cases h : p.1 == k
    · simpa [aget_cons, h, adel] using aget_adel_self k rest
    · simpa [adel] using aget_adel_self k rest

theorem aget_mapset_ne {β : Type} (k k2 : String) (v : β) (h : k ≠ k2) :
    ∀ l : List (String × β),
      aget k (l.map fun p => if p.1 == k2 then (k2, v) else p) = aget k l
  | [] => rfl
  | p :: rest => by
    have ih := aget_mapset_ne k k2 v h rest
    rw [List.map_cons]
    split
    · rename_i hp
      rw [aget_cons, aget_cons]
      have hk2 : (k2 == k) = false := by
        simp only [beq_eq_false_iff_ne, ne_eq]
        exact fun e => h e.symm
      have hk : (p.1 == k) = false := by
        simp only [beq_eq_false_iff_ne, ne_eq]
        intro e
        exact h (e.symm.trans (by simpa using hp))
      rw [hk2, hk]
      exact ih
    · rename_i hp
      rw [aget_cons, aget_cons]
      cases hk : p.1 == k
      · exact ih
      · rfl

theorem aget_append_single_ne {β : Type} (k k2 : String) (v : β) (h : k ≠ k2) :
    ∀ l : List (String × β), aget k (l ++ [(k2, v)]) = aget k l
  | [] => by
    have hk2 : (k2 == k) = false := by
      simp only [beq_eq_false_iff_ne, ne_eq]
      exact fun e => h e.symm
    show aget k [(k2, v)] = none
    rw [aget_cons, hk2]
    simp [aget]
  | p :: rest => by
    rw [List.cons_append, aget_cons, aget_cons]
    cases hk : p.1 == k
    · exact aget_append_single_ne k k2 v h rest
    · rfl

theorem aget_aset_ne {β : Type} (k k2 : String) (v : β) (h : k ≠ k2)
    (l : List (String × β)) : aget k (aset k2 v l) = aget k l := by
  unfold aset
  split
  · exact aget_mapset_ne k k2 v h l
  · exact aget_append_single_ne k k2 v h l

theorem aget_map_touch {β : Type} (k : String) (f : β → β) :
    ∀ l : List (String × β),
      aget k (l.map fun p => if p.1 == k then (p.1, f p.2) else p) = (aget k l).map f
  | [] => rfl
  | p :: rest => by
    have ih := aget_map_touch k f rest
    rw [List.map_cons]
    split
    · rename_i hp
      have hp2 : (p.1 == k) = true := by simpa using hp
      rw [aget_cons, aget_cons, hp2]
      rfl
    · rename_i hp
      have hp2 : (p.1 == k) = false := by
        cases hpk : p.1 == k
        · rfl
        · exact absurd hpk hp
      rw [aget_cons, aget_cons, hp2]
      exact ih

theorem isSessionExpired_false {timeout now : Nat} {st : ManagerState} {sid : String}
    (h : isSessionExpired timeout now st sid = false) :
    ∃ m, aget sid st.meta = some m ∧ now - m.last_accessed ≤ timeout := by
  unfold isSessionExpired at h
  cases hg : aget sid st.meta with
  | none => rw [hg] at h; exact absurd h (by simp)
  | some m =>
    rw [hg] at h
    simp only [decide_eq_false_iff_not, Nat.not_lt] at h
    exact ⟨m, rfl, h⟩

theorem getOrCreate_eq_active (timeout now : Nat) (fresh : String) (st : ManagerState)
    (sid0 : String) (hc : st.current = some sid0)
    (hexp : isSessionExpired timeout now st sid0 = false) :
    getOrCreateSession timeout now fresh st = (sid0, refreshLast sid0 now st, []) := by
  unfold getOrCreateSession
  rw [hc]
  simp [hexp]

theorem getOrCreate_eq_expired (timeout now : Nat) (fresh : String) (st : ManagerState)
    (sid0 : String) (hc : st.current = some sid0)
    (hexp : isSessionExpired timeout now st sid0 = true) :
    getOrCreateSession timeout now fresh st
      = (fresh, createFresh fresh now ⟨adel sid0 st.sessions, adel sid0 st.meta, none⟩,
         [.clearPointer, .summarize sid0, .removeSession sid0,
          .createSession fresh, .setPointer fresh]) := by
  unfold getOrCreateSession
  rw [hc]
  simp [hexp]

theorem getOrCreate_eq_none (timeout now : Nat) (fresh : String) (st : ManagerState)
    (hc : st.current = none) :
    getOrCreateSession timeout now fresh st
      = (fresh, createFresh fresh now st,
         [.createSession fresh, .setPointer fresh]) := by
  unfold getOrCreateSession
  rw [hc]

/-- C3 counterexample: with timeout 60 minutes and `now − last_accessed`
exactly 60, the expiry test `now - last_accessed > self._timeout` is
false, so `get_or_create_session` hands back the existing current session
even though `now − last_accessed < timeout` fails — the call returns
neither a session satisfying the claimed strict bound nor a brand-new
id. -/
theorem getOrCreate_claim_counterexample :
    ¬(((getOrCreateSession 60 60 "n" ⟨[("s", [])], [("s", ⟨0, 0⟩)], some "s"⟩).1 = "n")
      ∨ ((⟨[("s", [])], [("s", ⟨0, 0⟩)], some "s"⟩ : ManagerState).current
            = some (getOrCreateSession 60 60 "n"
                ⟨[("s", [])], [("s", ⟨0, 0⟩)], some "s"⟩).1
          ∧ 60 - (0 : Nat) < 60)) := by
  decide

/-- C3 amended: every call returns either the current session — which at
the moment of the call satisfies `now − last_accessed ≤ timeout` (the
code's expiry test is the strict `now - last_accessed > timeout`) and
whose `last_accessed` is refreshed to `now` — or the id of the brand-new
session it creates; a current session found expired is summarized,
removed from both maps (when the generated id is distinct from it) and
never returned. -/
theorem getOrCreate_active_or_fresh (timeout now : Nat) (fresh : String)
    (st : ManagerState) :
    (st.current = some (getOrCreateSession timeout now fresh st).1
      ∧ ∃ m, aget (getOrCreateSession timeout now fresh st).1 st.meta = some m
          ∧ now - m.last_accessed ≤ timeout
          ∧ aget (getOrCreateSession timeout now fresh st).1
              (getOrCreateSession timeout now fresh st).2.1.meta
              = some ⟨m.created_at, now⟩)
    ∨ ((getOrCreateSession timeout now fresh st).1 = fresh
        ∧ (getOrCreateSession timeout now fresh st).2.1.current = some fresh
        ∧ ∀ sid, st.current = some sid → isSessionExpired timeout now st sid = true →
            MEvent.summarize sid ∈ (getOrCreateSession timeout now fresh st).2.2
            ∧ (sid ≠ fresh →
                aget sid (getOrCreateSession timeout now fresh st).2.1.sessions = none
                ∧ aget sid (getOrCreateSession timeout now fresh st).2.1.meta = none)) := by
  cases hc : st.current with
  | none =>
    rw [getOrCreate_eq_none timeout now fresh st hc]
    refine Or.inr ⟨rfl, rfl, ?_⟩
    intro sid hsid
    exact Option.noConfusion hsid
  | some sid0 =>
    cases hexp : isSessionExpired timeout now st sid0 with
    | false =>
      rw [getOrCreate_eq_active timeout now fresh st sid0 hc hexp]
      obtain ⟨m, hm, hle⟩ := isSessionExpired_false hexp
      refine Or.inl ⟨rfl, m, hm, hle, ?_⟩
      show aget sid0 (refreshLast sid0 now st).meta = some ⟨m.created_at, now⟩
      unfold refreshLast
      dsimp only
      rw [aget_map_touch sid0 (fun mm => ⟨mm.created_at, now⟩) st.meta, hm]
      rfl
    | true =>
      rw [getOrCreate_eq_expired timeout now fresh st sid0 hc hexp]
      refine Or.inr ⟨rfl, rfl, ?_⟩
      intro sid hsid hexp2
      injection hsid with h2
      subst h2
      refine ⟨by simp, fun hne => ⟨?_, ?_⟩⟩
      · show aget sid0 (aset fresh [] (adel sid0 st.sessions)) = none
        rw [aget_aset_ne sid0 fresh [] hne, aget_adel_self]
      · show aget sid0 (aset fresh ⟨now, now⟩ (adel sid0 st.meta)) = none
        rw [aget_aset_ne sid0 fresh (⟨now, now⟩ : SessMeta) hne, aget_adel_self]

/-- Witness for C3 (expired current session, distinct fresh id). -/
theorem getOrCreate_active_or_fresh_witness :
    (((⟨[("s", [])], [("s", ⟨0, 0⟩)], some "s"⟩ : ManagerState).current
        = some (getOrCreateSession 60 200 "n" ⟨[("s", [])], [("s", ⟨0, 0⟩)], some "s"⟩).1
      ∧ ∃ m, aget (getOrCreateSession 60 200 "n"
            ⟨[("s", [])], [("s", ⟨0, 0⟩)], some "s"⟩).1
            (⟨[("s", [])], [("s", ⟨0, 0⟩)], some "s"⟩ : ManagerState).meta = some m
          ∧ 200 - m.last_accessed ≤ 60
          ∧ aget (getOrCreateSession 60 200 "n"
                ⟨[("s", [])], [("s", ⟨0, 0⟩)], some "s"⟩).1
              (getOrCreateSession 60 200 "n"
                ⟨[("s", [])], [("s", ⟨0, 0⟩)], some "s"⟩).2.1.meta
              = some ⟨m.created_at, 200⟩)
    ∨ ((getOrCreateSession 60 200 "n" ⟨[("s", [])], [("s", ⟨0, 0⟩)], some "s"⟩).1 = "n"
        ∧ (getOrCreateSession 60 200 "n"
            ⟨[("s", [])], [("s", ⟨0, 0⟩)], some "s"⟩).2.1.current = some "n"
        ∧ ∀ sid, (⟨[("s", [])], [("s", ⟨0, 0⟩)], some "s"⟩ : ManagerState).current
              = some sid →
            isSessionExpired 60 200 ⟨[("s", [])], [("s", ⟨0, 0⟩)], some "s"⟩ sid = true →
            MEvent.summarize sid ∈ (getOrCreateSession 60 200 "n"
                ⟨[("s", [])], [("s", ⟨0, 0⟩)], some "s"⟩).2.2
            ∧ (sid ≠ "n" →
                aget sid (getOrCreateSession 60 200 "n"
                    ⟨[("s", [])], [("s", ⟨0, 0⟩)], some "s"⟩).2.1.sessions = none
                ∧ aget sid (getOrCreateSession 60 200 "n"
                    ⟨[("s", [])], [("s", ⟨0, 0⟩)], some "s"⟩).2.1.meta = none))) :=
  getOrCreate_active_or_fresh 60 200 "n" ⟨[("s", [])], [("s", ⟨0, 0⟩)], some "s"⟩

/-! ## Ordering of pointer clearing against store mutations -/

theorem cleanupGo_block (sid : String) :
    ∀ (L : List String) (st : ManagerState), sid ∈ L → st.current = some sid →
      ∃ pre post, (cleanupGo L st).2
          = pre ++ MEvent.summarize sid :: MEvent.removeSession sid ::
              MEvent.clearPointer :: post
        ∧ MEvent.clearPointer ∉ pre
  | [], _, hmem, _ => absurd hmem (List.not_mem_nil sid)
  | a :: rest, st, hmem, hcur => by
    by_cases ha : a = sid
    · subst ha
      have hb : (st.current == some a) = true := by simp [hcur]
      refine ⟨[], (cleanupGo rest (cleanupStep a st).1).2, ?_, by simp⟩
      simp [cleanupGo, cleanupStep, hb]
    · have hb : (st.current == some a) = false := by
        simp only [hcur, beq_eq_false_iff_ne, ne_eq, Option.some.injEq]
        exact fun e => ha e.symm
      have hcur2 : (cleanupStep a st).1.current = some sid := by
        show (if st.current == some a then none else st.current) = some sid
        rw [hb]
        exact hcur
      have hmem2 : sid ∈ rest := by
        rcases List.mem_cons.mp hmem with h1 | h1
        · exact absurd h1.symm ha
        · exact h1
      obtain ⟨pre, post, heq, hnot⟩ :=
        cleanupGo_block sid rest (cleanupStep a st).1 hmem2 hcur2
      refine ⟨MEvent.summarize a :: MEvent.removeSession a :: pre, post, ?_, ?_⟩
      · have hstep : (cleanupStep a st).1
            = ⟨adel a st.sessions, adel a st.meta, st.current⟩ := by
          show (⟨adel a st.sessions, adel a st.meta,
            if st.current == some a then none else st.current⟩ : ManagerState) = _
          rw [hb]
          rfl
        rw [hstep] at heq
        simp [cleanupGo, cleanupStep, hb, heq]
      · simp only [List.mem_cons, not_or]
        exact ⟨by simp, by simp, hnot⟩

/-- C9 counterexample: with the current session expired,
`cleanup_all_expired` summarizes it and removes it from both maps first,
and nulls the active pointer only afterwards — the pointer clear is the
last event of the trace, not the first. -/
theorem cleanup_clears_pointer_late :
    (⟨[("s", [])], [("s", ⟨0, 0⟩)], some "s"⟩ : ManagerState).current = some "s"
    ∧ isSessionExpired 60 200 ⟨[("s", [])], [("s", ⟨0, 0⟩)], some "s"⟩ "s" = true
    ∧ (cleanupAllExpired 60 200 ⟨[("s", [])], [("s", ⟨0, 0⟩)], some "s"⟩).2
        = [MEvent.summarize "s", MEvent.removeSession "s", MEvent.clearPointer]
    ∧ clearPrecedesMutations
        (cleanupAllExpired 60 200 ⟨[("s", [])], [("s", ⟨0, 0⟩)], some "s"⟩).2 = false
    ∧ MEvent.clearPointer
        ∈ (cleanupAllExpired 60 200 ⟨[("s", [])], [("s", ⟨0, 0⟩)], some "s"⟩).2 := by
  decide

/-- C9 amended: when `get_or_create_session` finds the current session
expired it clears the pointer before summarization, removal and creation;
`cleanup_all_expired` instead summarizes and removes the expired current
session first and clears the pointer only afterwards; and
`get_current_session` detects expiry without clearing the pointer or
mutating the store (it merely returns `None`). -/
theorem pointer_clear_ordering :
    (∀ (timeout now : Nat) (fresh : String) (st : ManagerState) (sid : String),
        st.current = some sid →
        isSessionExpired timeout now st sid = true →
        (getOrCreateSession timeout now fresh st).2.2
          = [MEvent.clearPointer, MEvent.summarize sid, MEvent.removeSession sid,
             MEvent.createSession fresh, MEvent.setPointer fresh]
        ∧ clearPrecedesMutations (getOrCreateSession timeout now fresh st).2.2 = true)
    ∧ (∀ (timeout now : Nat) (st : ManagerState) (sid : String),
        st.current = some sid →
        sid ∈ st.sessions.map Prod.fst →
        isSessionExpired timeout now st sid = true →
        ∃ pre post, (cleanupAllExpired timeout now st).2
            = pre ++ MEvent.summarize sid :: MEvent.removeSession sid ::
                MEvent.clearPointer :: post
          ∧ MEvent.clearPointer ∉ pre)
    ∧ (∀ (timeout now : Nat) (st : ManagerState) (sid : String),
        st.current = some sid →
        isSessionExpired timeout now st sid = true →
        getCurrentSession timeout now st = none) := by
  refine ⟨?_, ?_, ?_⟩
  · intro timeout now fresh st sid hcur hexp
    rw [getOrCreate_eq_expired timeout now fresh st sid hcur hexp]
    exact ⟨rfl, rfl⟩
  · intro timeout now st sid hcur hmem hexp
    exact cleanupGo_block sid _ st
      (List.mem_filter.mpr ⟨hmem, hexp⟩) hcur
  · intro timeout now st sid hcur hexp
    unfold getCurrentSession
    rw [hcur]
    simp [hexp]

/-- Witness for C9's amended statement at a concrete expired state. -/
theorem pointer_clear_ordering_witness :
    (getOrCreateSession 60 200 "n" ⟨[("s", [])], [("s", ⟨0, 0⟩)], some "s"⟩).2.2
        = [MEvent.clearPointer, MEvent.summarize "s", MEvent.removeSession "s",
           MEvent.createSession "n", MEvent.setPointer "n"]
    ∧ (∃ pre post, (cleanupAllExpired 60 200 ⟨[("s", [])], [("s", ⟨0, 0⟩)], some "s"⟩).2
          = pre ++ MEvent.summarize "s" :: MEvent.removeSession "s" ::
              MEvent.clearPointer :: post
        ∧ MEvent.clearPointer ∉ pre)
    ∧ getCurrentSession 60 200 ⟨[("s", [])], [("s", ⟨0, 0⟩)], some "s"⟩ = none :=
  ⟨(pointer_clear_ordering.1 60 200 "n" ⟨[("s", [])], [("s", ⟨0, 0⟩)], some "s"⟩ "s"
      rfl (by decide)).1,
   pointer_clear_ordering.2.1 60 200 ⟨[("s", [])], [("s", ⟨0, 0⟩)], some "s"⟩ "s"
      rfl (by decide) (by decide),
   pointer_clear_ordering.2.2 60 200 ⟨[("s", [])], [("s", ⟨0, 0⟩)], some "s"⟩ "s"
      rfl (by decide)⟩

/-! ## Lemmas about the metadata merge -/

theorem aget_append {β : Type} (k : String) :
    ∀ l1 l2 : List (String × β),
      aget k (l1 ++ l2)
        = match aget k l1 with
          | some v => some v
          | none => aget k l2
  | [], l2 => by simp [aget]
  | p :: rest, l2 => by
    rw [List.cons_append, aget_cons, aget_cons]
    cases hk : p.1 == k
    · exact aget_append k rest l2
    · rfl

theorem any_key_eq_isSome {β : Type} (k : String) :
    ∀ l : List (String × β), (l.any fun p => p.1 == k) = (aget k l).isSome
  | [] => rfl
  | p :: rest => by
    rw [List.any_cons, aget_cons]
    cases hk : p.1 == k
    · simpa using any_key_eq_isSome k rest
    · simp

theorem aget_map_mergeEntry (k : String) (new : List (String × ℚ)) :
    ∀ old : List (String × ℚ),
      aget k (old.map (pyMergeEntry new))
        = match aget k old with
          | none => none
          | some w =>
            match aget k new with
            | some v => some v
            | none => some w
  | [] => rfl
  | p :: rest => by
    have ih := aget_map_mergeEntry k new rest
    rw [List.map_cons, aget_cons, aget_cons]
    by_cases hk : p.1 = k
    · subst hk
      have hrefl : (p.1 == p.1) = true := by simp
      cases hv : aget p.1 new <;>
        simp only [pyMergeEntry, hv, hrefl] <;> rfl
    · have hk2 : (p.1 == k) = false := by simpa using hk
      cases hv : aget p.1 new <;>
        simp only [pyMergeEntry, hv, hk2] <;>
        exact ih

theorem aget_filter_notany (k : String) (old : List (String × ℚ)) :
    ∀ new : List (String × ℚ),
      aget k (new.filter fun q => !(old.any fun p => p.1 == q.1))
        = if old.any fun p => p.1 == k then none else aget k new
  | [] => by
    cases hh : old.any fun p => p.1 == k <;> simp [aget]
  | q :: rest => by
    have ih := aget_filter_notany k old rest
    rw [List.filter_cons]
    by_cases hqk : q.1 = k
    · subst hqk
      cases hh : old.any fun p => p.1 == q.1
      · have hrefl : (q.1 == q.1) = true := by simp
        simp only [hh, Bool.not_false, if_true, aget_cons, hrefl]
        rfl
      · simp only [hh, Bool.not_true, Bool.false_eq_true, if_false, ih, hh]
        rfl
    · have hqk2 : (q.1 == k) = false := by simpa using hqk
      cases hh : old.any fun p => p.1 == q.1
      · simp only [hh, Bool.not_false, if_true, aget_cons, hqk2,
          Bool.false_eq_true, if_false, ih]
      · simp only [hh, Bool.not_true, Bool.false_eq_true, if_false, ih]
        cases hP : old.any fun p => p.1 == k
        · rw [aget_cons, hqk2]
          rfl
        · rfl

theorem aget_pyDictMerge (k : String) (old new : List (String × ℚ)) :
    aget k (pyDictMerge old new)
      = match aget k new with
        | some v => some v
        | none => aget k old := by
  unfold pyDictMerge
  rw [aget_append, aget_map_mergeEntry, aget_filter_notany, any_key_eq_isSome]
  cases ho : aget k old <;> cases hn : aget k new <;> simp

theorem aget_self_of_nodup {β : Type} :
    ∀ (A : List (String × β)), (A.map Prod.fst).Nodup →
      ∀ p ∈ A, aget p.1 A = some p.2
  | [], _, p, hp => absurd hp (List.not_mem_nil p)
  | q :: rest, hnd, p, hp => by
    rw [List.map_cons, List.nodup_cons] at hnd
    rcases List.mem_cons.mp hp with h1 | h1
    · subst h1
      rw [aget_cons]
      simp
    · rw [aget_cons]
      have hq : (q.1 == p.1) = false := by
        simp only [beq_eq_false_iff_ne, ne_eq]
        intro e
        exact hnd.1 (e ▸ List.mem_map_of_mem Prod.fst h1)
      rw [hq]
      exact aget_self_of_nodup rest hnd.2 p h1

theorem pyDictMerge_self (A : List (String × ℚ)) (hnd : (A.map Prod.fst).Nodup) :
    pyDictMerge A A = A := by
  unfold pyDictMerge
  have step : ∀ p ∈ A, pyMergeEntry A p = id p := by
    intro p hp
    unfold pyMergeEntry
    rw [aget_self_of_nodup A hnd p hp]
    rfl
  have h2 : (A.filter fun q => !(A.any fun p => p.1 == q.1)) = [] := by
    rw [List.filter_eq_nil_iff]
    intro q hq
    have hA : (A.any fun p => p.1 == q.1) = true :=
      List.any_eq_true.mpr ⟨q, hq, by simp⟩
    simp [hA]
  rw [List.map_congr_left step, List.map_id, h2, List.append_nil]

/-- C5 counterexample: when the new metadata wins on confidence, the code
returns the Python dict union of old and new, so the key `"extra"`
present only in the old object survives — the result is not the new
object entirely. -/
theorem merge_keeps_oldOnly_key :
    merge_metadata [("confidence", 1), ("extra", 7)] [("confidence", 2)]
        = [("confidence", 2), ("extra", 7)]
    ∧ merge_metadata [("confidence", 1), ("extra", 7)] [("confidence", 2)]
        ≠ [("confidence", 2)]
    ∧ dgetQ [("confidence", 1), ("extra", 7)] "confidence" 0
        ≤ dgetQ [("confidence", 2)] "confidence" 0 := by
  refine ⟨by decide, by decide, by decide⟩

/-- C5 amended: `merge_metadata` returns the old object unchanged when
`new.confidence < old.confidence`; when `new.confidence >= old.confidence`
it returns the Python dict union `\x7b**old, **new\x7d` — every key of
`new` carries `new`'s value, but a key present only in `old` keeps `old`'s
value instead of disappearing; merging a duplicate-key-free object with
itself yields that object. -/
theorem merge_metadata_characterization :
    (∀ old new : List (String × ℚ),
        ¬ dgetQ old "confidence" 0 ≤ dgetQ new "confidence" 0 →
        merge_metadata old new = old)
    ∧ (∀ old new : List (String × ℚ),
        dgetQ old "confidence" 0 ≤ dgetQ new "confidence" 0 →
        ∀ k, aget k (merge_metadata old new)
          = match aget k new with
            | some v => some v
            | none => aget k old)
    ∧ (∀ A : List (String × ℚ), (A.map Prod.fst).Nodup →
        merge_metadata A A = A) := by
  refine ⟨?_, ?_, ?_⟩
  · intro old new h
    unfold merge_metadata
    rw [if_neg h]
  · intro old new h k
    unfold merge_metadata
    rw [if_pos h]
    exact aget_pyDictMerge k old new
  · intro A hnd
    unfold merge_metadata
    rw [if_pos (le_refl _)]
    exact pyDictMerge_self A hnd

/-- Witness for C5's amended statement: lower new confidence keeps the old
object, self-merge is the identity, and when new wins its value is the
one looked up in the merge. -/
theorem merge_metadata_characterization_witness :
    merge_metadata [("confidence", (2 : ℚ))] [("confidence", (1 : ℚ))]
        = [("confidence", (2 : ℚ))]
    ∧ merge_metadata [("confidence", (2 : ℚ))] [("confidence", (2 : ℚ))]
        = [("confidence", (2 : ℚ))]
    ∧ aget "confidence"
        (merge_metadata [("confidence", (1 : ℚ))] [("confidence", (2 : ℚ))])
        = some 2 := by
  refine ⟨merge_metadata_characterization.1 _ _ (by decide),
    merge_metadata_characterization.2.2 _ (by decide),
    (merge_metadata_characterization.2.1 [("confidence", (1 : ℚ))]
      [("confidence", (2 : ℚ))] (by decide) "confidence").trans (by decide)⟩

/-! ## Embedding dimension handling (C8) -/

set_option maxRecDepth 8192 in
/-- C8 counterexample: starting from the default dimension 768, a
384-entry vector is accepted, and the tracked dimension is silently
updated to 384 — `get_embedding` adapts instead of failing. -/
theorem get_embedding_adapts :
    (get_embedding ⟨VECTOR_DIMENSION⟩ (.items (List.replicate 384 (0 : ℚ)))
        = .ok (List.replicate 384 (0 : ℚ), ⟨384⟩))
    ∧ (List.replicate 384 (0 : ℚ)).length ≠ VECTOR_DIMENSION
    ∧ ∀ e : String,
        get_embedding ⟨VECTOR_DIMENSION⟩ (.items (List.replicate 384 (0 : ℚ)))
          ≠ .error e := by
  refine ⟨rfl, by decide, ?_⟩
  intro e h
  have h1 : get_embedding ⟨VECTOR_DIMENSION⟩ (.items (List.replicate 384 (0 : ℚ)))
      = .ok (List.replicate 384 (0 : ℚ), ⟨384⟩) := rfl
  rw [h1] at h
  exact Except.noConfusion h

/-- C8 amended: the store's `expected_dimension` is fixed when the
`VectorStore` object is created (the module instance uses the default
768) and `store_vector` rejects exactly the vectors of a different
length; `get_embedding` itself never fails for a changed dimension — it
returns the vector and sets the tracked dimension to the vector's
length. -/
theorem embedding_dimension_amended :
    (∀ (expectedDim : Nat) (v : List ℚ),
        store_vector expectedDim v = .ok () ↔ v.length = expectedDim)
    ∧ ∀ (st : EmbedderState) (v : List ℚ),
        get_embedding st (.items v) = .ok (v, ⟨v.length⟩) := by
  constructor
  · intro d v
    unfold store_vector
    split
    · rename_i h
      exact ⟨fun he => Except.noConfusion he, fun hl => absurd hl h⟩
    · rename_i h
      simp only [ne_eq, not_not] at h
      exact ⟨fun _ => h, fun _ => rfl⟩
  · intro st v
    show Except.ok (v, if v.length ≠ st.dimension
        then ({ dimension := v.length } : EmbedderState) else st)
      = Except.ok (v, ({ dimension := v.length } : EmbedderState))
    split
    · rfl
    · rename_i h
      simp only [ne_eq, not_not] at h
      cases st
      rw [h]

/-- Witness for C8's amended statement. -/
theorem embedding_dimension_amended_witness :
    (store_vector 3 [0, 0, 0] = .ok () ↔ ([0, 0, 0] : List ℚ).length = 3)
    ∧ get_embedding ⟨768⟩ (.items [0]) = .ok ([0], ⟨1⟩) :=
  ⟨embedding_dimension_amended.1 3 [0, 0, 0],
   embedding_dimension_amended.2 ⟨768⟩ [0]⟩

/-! ## Failure propagation in run_rag_with_scores (C6) -/

/-- C6 counterexample: with one matching turn in short-term memory and a
failing long-term semantic search, the whole retrieval comes back as the
error — the non-empty short-term matches are not returned. -/
theorem ragScores_propagates_failure :
    runRagWithScoresRetrieval (some "s") [⟨"user", "hello", none⟩] "hello"
        (.error "connect timeout") 5 = .error "connect timeout"
    ∧ searchShortTerm "s" [⟨"user", "hello", none⟩] "hello" 5 ≠ []
    ∧ runRagWithScoresRetrieval (some "s") [⟨"user", "hello", none⟩] "hello"
        (.error "connect timeout") 5
      ≠ .ok (searchShortTerm "s" [⟨"user", "hello", none⟩] "hello" 5) := by
  refine ⟨rfl, by decide, ?_⟩
  intro h
  have h1 : runRagWithScoresRetrieval (some "s") [⟨"user", "hello", none⟩] "hello"
      (.error "connect timeout") 5 = .error "connect timeout" := rfl
  rw [h1] at h
  exact Except.noConfusion h

/-- C6 amended: `run_rag_with_scores` runs `await semantic_search(...)`
with no enclosing `try`, so a failing long-term search propagates to the
caller and the short-term matches are discarded with it; only when the
long-term call succeeds does the function return the fused ranking. -/
theorem ragScores_error_amended :
    (∀ (sid : Option String) (msgs : List Msg) (q e : String) (topK : Nat),
        runRagWithScoresRetrieval sid msgs q (.error e) topK = .error e)
    ∧ ∀ (sid : String) (msgs : List Msg) (q : String) (raw : List RawItem)
        (topK : Nat),
        runRagWithScoresRetrieval (some sid) msgs q (.ok raw) topK
          = .ok (fuseAndRank (searchShortTerm sid msgs q topK)
              (extractSemanticResults raw topK) topK) := by
  constructor
  · intro sid msgs q e topK
    cases sid <;> rfl
  · intro sid msgs q raw topK
    rfl

/-! ## Empty-query behaviour (C10) -/

theorem containsSub_nil (hay : List Char) : containsSub [] hay = true := by
  unfold containsSub
  rw [List.any_eq_true]
  exact ⟨hay, (List.mem_tails hay hay).mpr (List.suffix_refl hay),
    by cases hay <;> rfl⟩

/-- C10: with a non-empty session, the short-term pass for the empty
query matches every turn (the empty string is a substring of every text)
and scores each at 100, while `search_session` returns the empty list for
an empty query. -/
theorem emptyQuery_matches_all (sid : String) (msgs : List Msg) (topK : Nat)
    (hsid : sid ≠ "") (hmsgs : msgs ≠ []) :
    searchShortTerm sid msgs "" topK
      = ((msgs.map fun m =>
          ({ id := "stm_", document := m.message, source := "short_term_memory",
             distance := 0, similarity_score := 100 } : Snippet)).take topK)
    ∧ (∀ s ∈ searchShortTerm sid msgs "" topK, s.similarity_score = 100)
    ∧ search_session sid "" msgs = [] := by
  have hbe : (sid == "") = false := by
    simp only [beq_eq_false_iff_ne, ne_eq]
    exact hsid
  have hie : msgs.isEmpty = false := by
    cases msgs with
    | nil => exact absurd rfl hmsgs
    | cons a l => rfl
  have hfilter : (msgs.filter fun m =>
      containsSub (pyLower "") (pyLower m.message)) = msgs := by
    rw [List.filter_eq_self]
    intro m _
    exact containsSub_nil (pyLower m.message)
  have h1 : searchShortTerm sid msgs "" topK
      = ((msgs.map fun m =>
          ({ id := "stm_", document := m.message, source := "short_term_memory",
             distance := 0, similarity_score := 100 } : Snippet)).take topK) := by
    unfold searchShortTerm
    rw [hbe, hie, hfilter]
    rfl
  refine ⟨h1, ?_, ?_⟩
  · intro s hs
    rw [h1] at hs
    have hs2 := (List.take_sublist topK _).mem hs
    obtain ⟨m, _, rfl⟩ := List.mem_map.mp hs2
    rfl
  · unfold search_session
    simp

/-- Witness for C10 at a one-turn session. -/
theorem emptyQuery_matches_all_witness :
    searchShortTerm "s" [⟨"user", "hello", none⟩] "" 5
        = [⟨"stm_", "hello", "short_term_memory", 0, 100⟩]
    ∧ search_session "s" "" [⟨"user", "hello", none⟩] = [] := by
  have h := emptyQuery_matches_all "s" [⟨"user", "hello", none⟩] 5
    (by decide) (by decide)
  exact ⟨h.1.trans (by decide), h.2.2⟩

/-! ## The relatedness test (C7) -/

theorem div_gt_three_tenths (a b : Nat) (hb : 0 < b) :
    ((a : ℚ) / (b : ℚ) > 3 / 10) ↔ 3 * b < 10 * a := by
  rw [gt_iff_lt, div_lt_div_iff₀ (by norm_num) (by exact_mod_cast hb)]
  constructor
  · intro h
    have h2 : (3 * b : ℚ) < (10 * a : ℚ) := by linarith
    exact_mod_cast h2
  · intro h
    have h2 : (3 * b : ℚ) < (10 * a : ℚ) := by exact_mod_cast h
    push_cast at h2
    linarith

/-- C7: `_are_messages_related` lowercases, splits on whitespace, strips
the fixed stop-word set, and returns related iff
`|overlap| / max(|set1|, |set2|) > 0.3`, with `false` whenever either
keyword set is empty; the cats/eat pair is related and the cats/france
pair is not. -/
theorem are_messages_related_spec :
    (∀ m1 m2 : String,
        are_messages_related m1 m2 = true ↔
          (keywordsOf m1 ≠ [] ∧ keywordsOf m2 ≠ [] ∧
            (((keywordsOf m1).filter fun w => (keywordsOf m2).contains w).length : ℚ)
                / (max (keywordsOf m1).length (keywordsOf m2).length : ℚ)
              > 3 / 10))
    ∧ are_messages_related "tell me about cats" "what do cats eat" = true
    ∧ are_messages_related "tell me about cats" "what is the capital of france"
        = false := by
  have hmain : ∀ m1 m2 : String,
      are_messages_related m1 m2 = true ↔
        (keywordsOf m1 ≠ [] ∧ keywordsOf m2 ≠ [] ∧
          (((keywordsOf m1).filter fun w => (keywordsOf m2).contains w).length : ℚ)
              / (max (keywordsOf m1).length (keywordsOf m2).length : ℚ)
            > 3 / 10) := by
    intro m1 m2
    unfold are_messages_related
    dsimp only
    by_cases h1 : keywordsOf m1 = []
    · have e1 : (keywordsOf m1).isEmpty = true := by rw [h1]; rfl
      rw [e1]
      simp [h1]
    · by_cases h2 : keywordsOf m2 = []
      · have e2 : (keywordsOf m2).isEmpty = true := by rw [h2]; rfl
        rw [e2]
        simp [h2]
      · have e1 : (keywordsOf m1).isEmpty = false := by
          cases hk : keywordsOf m1
          · exact absurd hk h1
          · rfl
        have e2 : (keywordsOf m2).isEmpty = false := by
          cases hk : keywordsOf m2
          · exact absurd hk h2
          · rfl
        rw [e1, e2]
        simp only [Bool.or_self, Bool.false_eq_true, if_false, decide_eq_true_eq]
        exact ⟨fun hp => ⟨h1, h2, hp⟩, fun hh => hh.2.2⟩
  refine ⟨hmain, ?_, ?_⟩
  · refine (hmain _ _).mpr ⟨by decide, by decide, ?_⟩
    have hov : (((keywordsOf "tell me about cats").filter fun w =>
        (keywordsOf "what do cats eat").contains w).length) = 1 := by decide
    have hmx : (max (keywordsOf "tell me about cats").length
        (keywordsOf "what do cats eat").length) = 3 := by decide
    rw [hov, ← Nat.cast_max, hmx]
    rw [div_gt_three_tenths 1 3 (by norm_num)]
    norm_num
  · have hov : (((keywordsOf "tell me about cats").filter fun w =>
        (keywordsOf "what is the capital of france").contains w).length) = 0 := by
      decide
    have hmx : (max (keywordsOf "tell me about cats").length
        (keywordsOf "what is the capital of france").length) = 3 := by decide
    cases hb : are_messages_related "tell me about cats"
        "what is the capital of france"
    · rfl
    · exfalso
      have hp := ((hmain _ _).mp hb).2.2
      rw [hov, ← Nat.cast_max, hmx, div_gt_three_tenths 0 3 (by norm_num)] at hp
      norm_num at hp

/-- Witness for C7's characterization at concrete texts. -/
theorem are_messages_related_spec_witness :
    are_messages_related "cats purr" "cats" = true ↔
      (keywordsOf "cats purr" ≠ [] ∧ keywordsOf "cats" ≠ [] ∧
        (((keywordsOf "cats purr").filter fun w =>
            (keywordsOf "cats").contains w).length : ℚ)
            / (max (keywordsOf "cats purr").length (keywordsOf "cats").length : ℚ)
          > 3 / 10) :=
  are_messages_related_spec.1 "cats purr" "cats"

/-! ## Retrieval fusion ranking (C4) -/

theorem snipDescLE_trans : ∀ a b c : Snippet,
    snipDescLE a b → snipDescLE b c → snipDescLE a c := by
  intro a b c hab hbc
  simp only [snipDescLE, decide_eq_true_eq] at hab hbc ⊢
  exact le_trans hbc hab

theorem snipDescLE_total : ∀ a b : Snippet, snipDescLE a b || snipDescLE b a := by
  intro a b
  simp only [snipDescLE]
  rcases le_total a.similarity_score b.similarity_score with h | h <;> simp [h]

theorem pySortDesc_sorted (l : List Snippet) :
    (pySortDesc l).Pairwise fun a b => b.similarity_score ≤ a.similarity_score := by
  have h := List.sorted_mergeSort snipDescLE_trans snipDescLE_total l
  exact h.imp fun hab => of_decide_eq_true hab

theorem pySortDesc_filter_score (l : List Snippet) (x : ℚ) :
    (pySortDesc l).filter (fun s => decide (s.similarity_score = x))
      = l.filter (fun s => decide (s.similarity_score = x)) := by
  have hfl : ∀ s ∈ l.filter (fun s => decide (s.similarity_score = x)),
      s.similarity_score = x := by
    intro s hs
    exact of_decide_eq_true (List.mem_filter.mp hs).2
  have hpw : (l.filter (fun s => decide (s.similarity_score = x))).Pairwise
      fun a b => snipDescLE a b := by
    refine List.pairwise_of_forall_mem_list ?_
    intro a ha b hb
    have h1 := hfl a ha
    have h2 := hfl b hb
    simp [snipDescLE, h1, h2]
  have hsub : (l.filter (fun s => decide (s.similarity_score = x))).Sublist l :=
    List.filter_sublist l
  have h1 : (l.filter (fun s => decide (s.similarity_score = x))).Sublist
      (pySortDesc l) :=
    List.sublist_mergeSort snipDescLE_trans snipDescLE_total hpw hsub
  have h2 : (l.filter (fun s => decide (s.similarity_score = x))).Sublist
      ((pySortDesc l).filter (fun s => decide (s.similarity_score = x))) := by
    have h3 := h1.filter (fun s => decide (s.similarity_score = x))
    rwa [List.filter_eq_self.mpr (fun a ha => (List.mem_filter.mp ha).2)] at h3
  have h3 : List.Perm
      ((pySortDesc l).filter (fun s => decide (s.similarity_score = x)))
      (l.filter (fun s => decide (s.similarity_score = x))) :=
    (List.mergeSort_perm l snipDescLE).filter _
  exact (h2.eq_of_length h3.length_eq.symm).symm

theorem searchShortTerm_mem {sid : String} {msgs : List Msg} {q : String}
    {topK : Nat} {s : Snippet} (hs : s ∈ searchShortTerm sid msgs q topK) :
    s.similarity_score = 100 ∧ s.source = "short_term_memory" ∧ s.distance = 0 := by
  unfold searchShortTerm at hs
  split at hs
  · exact absurd hs (List.not_mem_nil s)
  · split at hs
    · exact absurd hs (List.not_mem_nil s)
    · have hs2 := (List.take_sublist topK _).mem hs
      obtain ⟨m, _, rfl⟩ := List.mem_map.mp hs2
      exact ⟨rfl, rfl, rfl⟩

theorem extractSemantic_mem {raw : List RawItem} {topK : Nat} {s : Snippet}
    (hs : s ∈ extractSemanticResults raw topK) :
    ∃ r ∈ raw, s = ⟨r.id, r.text, r.msource, r.distance, r.similarity_score⟩ := by
  unfold extractSemanticResults at hs
  obtain ⟨r, hr, rfl⟩ := List.mem_map.mp hs
  exact ⟨r, (List.take_sublist topK raw).mem hr, rfl⟩

theorem simScore100_lt_of_pos {d : ℚ} (hd : 0 < d) : simScore100 d < 100 := by
  unfold simScore100
  have h1 : 100 * (1 - d) < 100 := by nlinarith
  have h2 : min 100 (100 * (1 - d)) < 100 := lt_of_le_of_lt (min_le_right _ _) h1
  exact max_lt (by norm_num) h2

/-- C4: every short-term match carries similarity score 100; the fused
list is the stable descending sort of short-term followed by long-term
results, truncated to `top_k` (sortedness, tie-stability per score value,
and the truncation are each stated); consequently anything ranked above a
short-term snippet has score at least 100, so it is never a long-term
snippet with positive distance (whose spec-modelled score is below
100). -/
theorem fusion_ranks_shortTerm (sid : String) (msgs : List Msg) (q : String)
    (raw : List RawItem) (topK : Nat)
    (hscore : ∀ r ∈ raw, r.similarity_score = simScore100 r.distance)
    (hsrc : ∀ r ∈ raw, r.msource ≠ "short_term_memory") :
    let stm := searchShortTerm sid msgs q topK
    let lt := extractSemanticResults raw topK
    let fused := fuseAndRank stm lt topK
    (∀ s ∈ stm, s.similarity_score = 100)
    ∧ fused.Pairwise (fun a b => b.similarity_score ≤ a.similarity_score)
    ∧ (∀ x : ℚ,
        (pySortDesc (stm ++ lt)).filter (fun s => decide (s.similarity_score = x))
          = (stm ++ lt).filter (fun s => decide (s.similarity_score = x)))
    ∧ fused = (pySortDesc (stm ++ lt)).take topK
    ∧ ∀ i j : Fin fused.length, (i : Nat) < (j : Nat) →
        (fused.get j).source = "short_term_memory" →
        100 ≤ (fused.get i).similarity_score
        ∧ ((fused.get i).source ≠ "short_term_memory" →
            (fused.get i).distance ≤ 0) := by
  intro stm lt fused
  have hpw : fused.Pairwise (fun a b => b.similarity_score ≤ a.similarity_score) :=
    List.Pairwise.sublist (List.take_sublist _ _) (pySortDesc_sorted (stm ++ lt))
  refine ⟨fun s hs => (searchShortTerm_mem hs).1, hpw,
    fun x => pySortDesc_filter_score (stm ++ lt) x, rfl, ?_⟩
  intro i j hij hjsrc
  have hle : (fused.get j).similarity_score ≤ (fused.get i).similarity_score :=
    List.pairwise_iff_get.mp hpw i j hij
  have hmem : ∀ k : Fin fused.length, fused.get k ∈ stm ++ lt := by
    intro k
    have h1 : fused.get k ∈ fused := List.get_mem fused k.1 k.2
    have h2 : fused.get k ∈ pySortDesc (stm ++ lt) :=
      (List.take_sublist _ _).mem h1
    unfold pySortDesc at h2
    exact List.mem_mergeSort.mp h2
  have hjstm : fused.get j ∈ stm := by
    rcases List.mem_append.mp (hmem j) with h | h
    · exact h
    · obtain ⟨r, hr, heq⟩ := extractSemantic_mem h
      rw [heq] at hjsrc
      exact absurd hjsrc (hsrc r hr)
  have hj100 : (fused.get j).similarity_score = 100 := (searchShortTerm_mem hjstm).1
  rw [hj100] at hle
  refine ⟨hle, ?_⟩
  intro hisrc
  have hilt : fused.get i ∈ lt := by
    rcases List.mem_append.mp (hmem i) with h | h
    · exact absurd (searchShortTerm_mem h).2.1 hisrc
    · exact h
  obtain ⟨r, hr, heq⟩ := extractSemantic_mem hilt
  have hsc : (fused.get i).similarity_score = simScore100 (fused.get i).distance := by
    rw [heq]
    exact hscore r hr
  by_contra hdist
  push_neg at hdist
  have hlt := simScore100_lt_of_pos hdist
  rw [← hsc] at hlt
  linarith

/-- Witness for C4 at a two-match session and an empty long-term
response. -/
theorem fusion_ranks_shortTerm_witness :
    let stm := searchShortTerm "s"
      [⟨"user", "cats", none⟩, ⟨"user", "cats too", none⟩] "cats" 5
    let lt := extractSemanticResults [] 5
    let fused := fuseAndRank stm lt 5
    (∀ s ∈ stm, s.similarity_score = 100)
    ∧ fused.Pairwise (fun a b => b.similarity_score ≤ a.similarity_score)
    ∧ (∀ x : ℚ,
        (pySortDesc (stm ++ lt)).filter (fun s => decide (s.similarity_score = x))
          = (stm ++ lt).filter (fun s => decide (s.similarity_score = x)))
    ∧ fused = (pySortDesc (stm ++ lt)).take 5
    ∧ ∀ i j : Fin fused.length, (i : Nat) < (j : Nat) →
        (fused.get j).source = "short_term_memory" →
        100 ≤ (fused.get i).similarity_score
        ∧ ((fused.get i).source ≠ "short_term_memory" →
            (fused.get i).distance ≤ 0) :=
  fusion_ranks_shortTerm "s" [⟨"user", "cats", none⟩, ⟨"user", "cats too", none⟩]
    "cats" [] 5
    (fun r hr => absurd hr (List.not_mem_nil r))
    (fun r hr => absurd hr (List.not_mem_nil r))

end Orchestrator
